import Mathlib

/-!
Verification development for the stimulus-pdf-viewer repository.

We give a shallow embedding of the three core subsystems —
the `CoordinateTransformer` geometry engine (src/unnamed/part_002),
the `RenderingQueue` scheduler (src/src/lib/core/rendering_queue.js together
with `CoreViewer.renderPage` from src/unnamed/part_012), and the
`FindController` search engine (src/src/lib/find_controller.js) —
and prove or refute the specification claims about them.

Numeric values (pixel coordinates, document-unit coordinates, scales) are
modelled as rationals `ℚ`; the freehand-stroke geometry additionally needs a
square root (`Math.sqrt` in the source) and is therefore modelled over `ℝ`.
-/

namespace SPV

/-- A 2D point `{x, y}`, generic over the number type. -/
structure Pt (α : Type) where
  x : α
  y : α
deriving DecidableEq, Repr

/-- A screen-space rectangle as produced by `getBoundingClientRect` /
`getClientRects`: fields `left`, `top`, `right`, `bottom`. -/
structure SRect (α : Type) where
  left : α
  top : α
  right : α
  bottom : α
deriving DecidableEq, Repr

/-- A document-unit rectangle object `{left, right, top, bottom}` as built in
`selectionRectsToQuads` (the elements of `rectArray`). -/
structure DRect where
  left : ℚ
  right : ℚ
  top : ℚ
  bottom : ℚ
deriving DecidableEq, Repr

/-- A quad `{p1, p2, p3, p4}` of four 2D points. -/
structure Quad (α : Type) where
  p1 : Pt α
  p2 : Pt α
  p3 : Pt α
  p4 : Pt α
deriving DecidableEq, Repr

/-- The page context a `CoordinateTransformer` call reads from the viewer:
`getPageContainer(pageNumber).getBoundingClientRect()` and `getScale()`.
All transformer functions below are only called on pages whose container is
known (the source returns `null`/`[]` otherwise). -/
structure PageCtx where
  pageRect : SRect ℚ
  scale : ℚ
deriving DecidableEq, Repr

/-- The `CoordinateTransformer.screenToPdf`: subtract the page container origin and
divide by the display scale (part_002 lines 7-23). -/
def screenToPdf (ctx : PageCtx) (p : Pt ℚ) : Pt ℚ :=
  ⟨(p.x - ctx.pageRect.left) / ctx.scale, (p.y - ctx.pageRect.top) / ctx.scale⟩

/-- The `CoordinateTransformer.pdfToScreen`: multiply by the display scale and add
the page container origin (part_002 lines 26-37). -/
def pdfToScreen (ctx : PageCtx) (p : Pt ℚ) : Pt ℚ :=
  ⟨p.x * ctx.scale + ctx.pageRect.left, p.y * ctx.scale + ctx.pageRect.top⟩

/-- The first filter of `selectionRectsToQuads` (part_002 lines 54-65), applied
to raw screen rects: drop rects with screen-pixel width or height below 1 and
rects entirely outside the page container. -/
def screenFilter (pageRect : SRect ℚ) (r : SRect ℚ) : Bool :=
  if r.right - r.left < 1 ∨ r.bottom - r.top < 1 then false
  else if r.right < pageRect.left ∨ r.left > pageRect.right then false
  else if r.bottom < pageRect.top ∨ r.top > pageRect.bottom then false
  else true

/-- The `map` step of `selectionRectsToQuads` (part_002 lines 66-71):
convert a screen rect to document units. -/
def toDocRect (pageRect : SRect ℚ) (scale : ℚ) (r : SRect ℚ) : DRect :=
  ⟨(r.left - pageRect.left) / scale, (r.right - pageRect.left) / scale,
   (r.top - pageRect.top) / scale, (r.bottom - pageRect.top) / scale⟩

/-- The `minSize` threshold from `selectionRectsToQuads` (part_002 line 48). -/
def minSize : ℚ := 1

/-- The second filter of `selectionRectsToQuads` (part_002 lines 72-83):
drop document-unit rects that are degenerate (width or height `< minSize`) and
rects with `left < minSize ∧ top < minSize` (the phantom-rect heuristic). -/
def docFilter (r : DRect) : Bool :=
  if r.right - r.left < minSize ∨ r.bottom - r.top < minSize then false
  else if r.left < minSize ∧ r.top < minSize then false
  else true

/-- The `rectArray` built by `selectionRectsToQuads` before merging
(part_002 lines 53-83). -/
def rectArray (rects : List (SRect ℚ)) (pageRect : SRect ℚ) (scale : ℚ) : List DRect :=
  ((rects.filter (screenFilter pageRect)).map (toDocRect pageRect scale)).filter docFilter

/-- The merge condition of `_mergeOverlappingRects` (part_002 lines 114-121):
overlap on both axes, or same text line (tops and bottoms within 3 units) and
horizontally adjacent (gap below 2 units). -/
def shouldMerge (rect existing : DRect) : Bool :=
  (decide (rect.top < existing.bottom) && decide (rect.bottom > existing.top)
      && decide (rect.left < existing.right) && decide (rect.right > existing.left))
    || ((decide (|rect.top - existing.top| < 3) && decide (|rect.bottom - existing.bottom| < 3))
      && (decide (|rect.left - existing.right| < 2) || decide (|existing.left - rect.right| < 2)))

/-- The merged rect written back into `result[i]` (part_002 lines 123-128). -/
def unionRect (existing rect : DRect) : DRect :=
  ⟨min existing.left rect.left, max existing.right rect.right,
   min existing.top rect.top, max existing.bottom rect.bottom⟩

/-- The inner `for i` search of one pass of `_mergeOverlappingRects`
(part_002 lines 110-133): try to merge `rect` into the first element of
`result` it should merge with; `none` when no element qualifies. -/
def mergeInto (result : List DRect) (rect : DRect) : Option (List DRect) :=
  match result with
  | [] => none
  | existing :: rest =>
    if shouldMerge rect existing then some (unionRect existing rect :: rest)
    else (mergeInto rest rect).map (existing :: ·)

/-- One pass of the `while (merged)` loop of `_mergeOverlappingRects`
(part_002 lines 104-140): fold the working list into `result`, merging each
rect into the first mergeable existing entry or appending it; the flag records
whether any merge happened. -/
def mergePassAux : List DRect → List DRect → Bool → List DRect × Bool
  | [], result, merged => (result, merged)
  | rect :: rest, result, merged =>
    match mergeInto result rect with
    | some result2 => mergePassAux rest result2 true
    | none => mergePassAux rest (result ++ [rect]) merged

/-- One full pass over the working list, starting from an empty `result` and
`merged = false` (part_002 lines 104-106). -/
def mergePass (working : List DRect) : List DRect × Bool :=
  mergePassAux working [] false

/-- The `while (merged)` loop of `_mergeOverlappingRects` (part_002 lines
100-143), written with an explicit pass budget. Each pass that merges anything
strictly shrinks the working list (`mergePass_length_lt`), so
`working.length` passes always suffice to reach the loop's exit condition; the
fixed-point theorems below confirm the budget is never exhausted early. -/
def mergeLoopFuel : ℕ → List DRect → List DRect
  | 0, working => working
  | fuel + 1, working =>
    let pass := mergePass working
    if pass.2 then mergeLoopFuel fuel pass.1 else pass.1

/-- The `CoordinateTransformer._mergeOverlappingRects` (part_002 lines 96-144). -/
def mergeOverlappingRects (rects : List DRect) : List DRect :=
  if rects.isEmpty then [] else mergeLoopFuel rects.length rects

/-- The quad emitted per merged rect (part_002 lines 87-92):
`p1` top-left, `p2` top-right, `p3` bottom-left, `p4` bottom-right. -/
def rectToQuad (rect : DRect) : Quad ℚ :=
  ⟨⟨rect.left, rect.top⟩, ⟨rect.right, rect.top⟩,
   ⟨rect.left, rect.bottom⟩, ⟨rect.right, rect.bottom⟩⟩

/-- The `CoordinateTransformer.selectionRectsToQuads` (part_002 lines 40-93). -/
def selectionRectsToQuads (rects : List (SRect ℚ)) (pageRect : SRect ℚ) (scale : ℚ) :
    List (Quad ℚ) :=
  (mergeOverlappingRects (rectArray rects pageRect scale)).map rectToQuad

/-- Read the document-unit rect back off an axis-aligned quad produced by
`rectToQuad` (inverse of the emit step; used to state the spec's
"output-derived rects"). -/
def quadToDRect (q : Quad ℚ) : DRect :=
  ⟨q.p1.x, q.p2.x, q.p1.y, q.p3.y⟩

/-- Scale a screen rect by a factor `k` (used to relate the same physical
selection observed at two display scales; the page container rect and all
client rects scale together with the display scale). -/
def scaleSRect (k : ℚ) (r : SRect ℚ) : SRect ℚ :=
  ⟨k * r.left, k * r.top, k * r.right, k * r.bottom⟩

/-- One iteration of the loop of `CoordinateTransformer.strokesPathToQuads`
(part_002 lines 173-199): convert two consecutive stroke points to document
units, compute the perpendicular offset (`Math.sqrt` modelled by
`Real.sqrt`), and emit the quad; `none` models the `continue` on a
zero-length segment. -/
noncomputable def strokeQuad (pageRect : SRect ℝ) (scale halfThickness : ℝ)
    (a b : Pt ℝ) : Option (Quad ℝ) :=
  let p1 : Pt ℝ := ⟨(a.x - pageRect.left) / scale, (a.y - pageRect.top) / scale⟩
  let p2 : Pt ℝ := ⟨(b.x - pageRect.left) / scale, (b.y - pageRect.top) / scale⟩
  let dx := p2.x - p1.x
  let dy := p2.y - p1.y
  let len := Real.sqrt (dx * dx + dy * dy)
  if len = 0 then none
  else
    let nx := -dy / len * halfThickness
    let ny := dx / len * halfThickness
    some ⟨⟨p1.x - nx, p1.y - ny⟩, ⟨p1.x + nx, p1.y + ny⟩,
          ⟨p2.x - nx, p2.y - ny⟩, ⟨p2.x + nx, p2.y + ny⟩⟩

/-- The `CoordinateTransformer.strokesPathToQuads` (part_002 lines 163-202):
`halfThickness = thickness / 2 / scale`, then one quad per consecutive point
pair (the loop `for i = 1; i < points.length`). -/
noncomputable def strokesPathToQuads (points : List (Pt ℝ)) (thickness : ℝ)
    (pageRect : SRect ℝ) (scale : ℝ) : List (Quad ℝ) :=
  let halfThickness := thickness / 2 / scale
  (points.zip points.tail).filterMap fun pr => strokeQuad pageRect scale halfThickness pr.1 pr.2

/-- A document rect at least `minSize` wide and tall. Every rect surviving
`docFilter` is sized, and merging preserves it. -/
def sizedRect (r : DRect) : Prop :=
  minSize ≤ r.right - r.left ∧ minSize ≤ r.bottom - r.top

/-- The winding order claimed by the spec for an axis-aligned quad in
top-left-origin coordinates: `p1` top-left, `p2` top-right, `p3` bottom-left,
`p4` bottom-right. -/
def quadWindingTLTRBLBR {α : Type} [Preorder α] (q : Quad α) : Prop :=
  q.p1.y = q.p2.y ∧ q.p3.y = q.p4.y ∧ q.p1.x = q.p3.x ∧ q.p2.x = q.p4.x ∧
  q.p1.x < q.p2.x ∧ q.p1.y < q.p3.y

/-! ### RenderingQueue / CoreViewer scheduling model

From src/src/lib/core/rendering_queue.js and `CoreViewer.renderPage`
(part_012 lines 177-297). Page state lives in the viewer's `pages` map;
`renderedScale` starts out absent (`none`). -/

/-- The `RenderingStates` (rendering_queue.js lines 9-14). -/
inductive RenderingState where
  | initial
  | running
  | paused
  | finished
deriving DecidableEq, Repr

/-- The per-page record fields the scheduler reads/writes
(part_012 lines 156-163, 277-278, 294). -/
structure PageData where
  renderingState : RenderingState
  renderedScale : Option ℚ
deriving DecidableEq, Repr

/-- The slice of `CoreViewer` state the scheduler depends on: `pageCount`,
`displayScale` and the `pages` map (`pages.get(n)` modelled as a function to
`Option PageData`). -/
structure ViewerState where
  pageCount : ℕ
  displayScale : ℚ
  pages : ℕ → Option PageData

/-- The visible range `{ first, last, scrollDirection }` as produced by
`getVisiblePages` (part_012 lines 304-345); `down` is
`scrollDirection == "down"`. -/
structure VisibleRange where
  first : ℕ
  last : ℕ
  down : Bool

/-- The `RenderingQueue._isPageRendered` (rendering_queue.js lines 145-158):
a missing page record counts as unrendered; RUNNING counts as rendered;
FINISHED counts only at the current display scale. -/
def isPageRendered (v : ViewerState) (pageNumber : ℕ) : Bool :=
  match v.pages pageNumber with
  | none => false
  | some pageData =>
    if pageData.renderingState = RenderingState.running then true
    else if pageData.renderingState = RenderingState.finished then
      decide (pageData.renderedScale = some v.displayScale)
    else false

/-- The ascending visible scan of `_getHighestPriorityPage`
(rendering_queue.js lines 104-109), with the loop's iteration count made
explicit: visits `page, page+1, …` for `count` steps and returns the first
page that is not rendered. -/
def scanAsc (v : ViewerState) : ℕ → ℕ → Option ℕ
  | 0, _ => none
  | count + 1, page =>
    if !isPageRendered v page then some page else scanAsc v count (page + 1)

/-- The descending visible scan of `_getHighestPriorityPage`
(rendering_queue.js lines 110-116): visits `page, page-1, …` for `count`
steps. -/
def scanDesc (v : ViewerState) : ℕ → ℕ → Option ℕ
  | 0, _ => none
  | count + 1, page =>
    if !isPageRendered v page then some page else scanDesc v count (page - 1)

/-- The `preRenderCount` (rendering_queue.js line 119). -/
def preRenderCount : ℕ := 2

/-- The pre-render loop after the visible area (rendering_queue.js lines
122-127): for `i = 1..remaining`, return `last + i` when it is within the
document and unrendered. -/
def preAfterLoop (v : ViewerState) (last : ℕ) : ℕ → ℕ → Option ℕ
  | _, 0 => none
  | i, remaining + 1 =>
    let nextPage := last + i
    if nextPage ≤ v.pageCount ∧ !isPageRendered v nextPage then some nextPage
    else preAfterLoop v last (i + 1) remaining

/-- The pre-render loop before the visible area (rendering_queue.js lines
130-135): for `i = 1..remaining`, return `first - i` when it is at least 1
and unrendered. -/
def preBeforeLoop (v : ViewerState) (first : ℕ) : ℕ → ℕ → Option ℕ
  | _, 0 => none
  | i, remaining + 1 =>
    let prevPage := first - i
    if 1 ≤ prevPage ∧ !isPageRendered v prevPage then some prevPage
    else preBeforeLoop v first (i + 1) remaining

/-- The `RenderingQueue._getHighestPriorityPage` (rendering_queue.js lines
91-138): first the visible range (ascending when scrolling down, else
descending), then up to 2 pages after `last`, then up to 2 pages before
`first`; `none` means idle. -/
def getHighestPriorityPage (v : ViewerState) (vis : VisibleRange) : Option ℕ :=
  let fromVisible :=
    if vis.down then scanAsc v (vis.last + 1 - vis.first) vis.first
    else scanDesc v (vis.last + 1 - vis.first) vis.last
  match fromVisible with
  | some p => some p
  | none =>
    match preAfterLoop v vis.last 1 preRenderCount with
    | some p => some p
    | none => preBeforeLoop v vis.first 1 preRenderCount

/-- Write one page record (`this.pages` mutation). -/
def setPage (v : ViewerState) (n : ℕ) (pd : PageData) : ViewerState :=
  { v with pages := Function.update v.pages n (some pd) }

/-- Net page-state effect of an awaited `CoreViewer.renderPage(n)` call that
succeeds (part_012 lines 177-291): early-return if the record is missing,
RUNNING, or FINISHED at the current scale; otherwise the page ends FINISHED
with `renderedScale = displayScale` (the intermediate RUNNING assignment is
subsumed because the call runs to completion here). -/
def renderPageSuccess (v : ViewerState) (n : ℕ) : ViewerState :=
  match v.pages n with
  | none => v
  | some pd =>
    if pd.renderingState = RenderingState.running then v
    else if pd.renderingState = RenderingState.finished ∧ pd.renderedScale = some v.displayScale
    then v
    else setPage v n ⟨RenderingState.finished, some v.displayScale⟩

/-- Net page-state effect of an awaited `CoreViewer.renderPage(n)` call whose
render throws (part_012 lines 292-296): the same early-return guards, then
the catch block resets the state to INITIAL (leaving `renderedScale` as it
was) and rethrows. -/
def renderPageFailure (v : ViewerState) (n : ℕ) : ViewerState :=
  match v.pages n with
  | none => v
  | some pd =>
    if pd.renderingState = RenderingState.running then v
    else if pd.renderingState = RenderingState.finished ∧ pd.renderedScale = some v.displayScale
    then v
    else setPage v n ⟨RenderingState.initial, pd.renderedScale⟩

/-- The `RenderingQueue.renderHighestPriority` (rendering_queue.js lines 53-83)
run to quiescence with no concurrent scrolling: the visible range stays
`vis`, and the oracle `fail` says which pages' renders throw. Each
iteration selects the highest-priority page; on success the queue re-invokes
itself (line 72), on failure the catch block only clears
`_highestPriorityPage` and logs (lines 73-76) — no re-invocation and no idle
callback — so the run stops. Returns the pages rendered in order, the final
viewer state, and whether the idle path (lines 78-82) was reached; `fuel`
bounds the iterations and the trace is only meaningful when the run ends
within it (third component `true`, or a failure stop). -/
def renderLoop (fail : ℕ → Bool) (v : ViewerState) (vis : VisibleRange) :
    ℕ → List ℕ × ViewerState × Bool
  | 0 => ([], v, false)
  | fuel + 1 =>
    match getHighestPriorityPage v vis with
    | none => ([], v, true)
    | some p =>
      if fail p then ([p], renderPageFailure v p, false)
      else
        let rest := renderLoop fail (renderPageSuccess v p) vis fuel
        (p :: rest.1, rest.2)

/-- The candidate order described by the spec for one scheduling pass:
visible pages (ascending when scrolling down, descending otherwise), then up
to 2 pages beyond `last`, then up to 2 pages before `first`, clipped to
`[1, pageCount]`. Stated from the spec to compare against
`getHighestPriorityPage`. -/
def scheduleCandidates (v : ViewerState) (vis : VisibleRange) : List ℕ :=
  let visiblePages := List.range' vis.first (vis.last + 1 - vis.first)
  (if vis.down then visiblePages else visiblePages.reverse) ++
    ((List.range' (vis.last + 1) 2).filter fun p => decide (1 ≤ p) && decide (p ≤ v.pageCount)) ++
    (([vis.first - 1, vis.first - 2]).filter fun p => decide (1 ≤ p) && decide (p ≤ v.pageCount))

/-! ### Cooperative-interleaving model for the viewer + scheduler

`renderHighestPriority` is async: it selects a page, then awaits
`renderPage`, which synchronously sets the page RUNNING before its own first
await. A scroll event (part_012 lines 350-365) can invoke
`renderHighestPriority` again while the first render is still suspended.
We model the synchronous prefixes and resumptions as atomic steps. -/

/-- The synchronous prefix of `CoreViewer.renderPage(n)` up to its first
`await` (part_012 lines 177-203): the early-return guards, then the page is
marked RUNNING. The Bool reports whether a render actually started. -/
def renderPageStart (v : ViewerState) (n : ℕ) : ViewerState × Bool :=
  match v.pages n with
  | none => (v, false)
  | some pd =>
    if pd.renderingState = RenderingState.running then (v, false)
    else if pd.renderingState = RenderingState.finished ∧ pd.renderedScale = some v.displayScale
    then (v, false)
    else (setPage v n ⟨RenderingState.running, pd.renderedScale⟩, true)

/-- Resumption of a suspended `renderPage(n)` that completes successfully
(part_012 lines 274-278): `renderedScale := displayScale`, state FINISHED. -/
def renderPageComplete (v : ViewerState) (n : ℕ) : ViewerState :=
  match v.pages n with
  | none => v
  | some _ => setPage v n ⟨RenderingState.finished, some v.displayScale⟩

/-- Resumption of a suspended `renderPage(n)` whose render throws
(part_012 lines 292-296): state reset to INITIAL. -/
def renderPageFail (v : ViewerState) (n : ℕ) : ViewerState :=
  match v.pages n with
  | none => v
  | some pd => setPage v n ⟨RenderingState.initial, pd.renderedScale⟩

/-- Viewer state plus the multiset of suspended `renderPage` tasks. -/
structure SysState where
  viewer : ViewerState
  inFlight : List ℕ

/-- The synchronous part of one `renderHighestPriority(vis)` invocation
(rendering_queue.js lines 53-72): select the highest-priority page and run
`renderPage`'s synchronous prefix, which suspends at its first await (the
task joins `inFlight`). When nothing qualifies only the idle timeout is
armed — no page state changes. -/
def triggerStep (s : SysState) (vis : VisibleRange) : SysState :=
  match getHighestPriorityPage s.viewer vis with
  | none => s
  | some p =>
    let started := renderPageStart s.viewer p
    ⟨started.1, if started.2 then p :: s.inFlight else s.inFlight⟩

/-- One cooperative-scheduling step of the viewer + scheduler system:
a scroll/resize/zoom event triggers `renderHighestPriority` (running its
synchronous prefix), or one suspended render resumes and finishes
(successfully or with an error). -/
inductive SysStep : SysState → SysState → Prop where
  | trigger (s : SysState) (vis : VisibleRange) : SysStep s (triggerStep s vis)
  | finishOk (s : SysState) (p : ℕ) (hp : p ∈ s.inFlight) :
      SysStep s ⟨renderPageComplete s.viewer p, s.inFlight.erase p⟩
  | finishErr (s : SysState) (p : ℕ) (hp : p ∈ s.inFlight) :
      SysStep s ⟨renderPageFail s.viewer p, s.inFlight.erase p⟩

/-- Reachability in the cooperative-interleaving model. -/
def SysReachable (s t : SysState) : Prop := Relation.ReflTransGen SysStep s t

/-- Number of pages in state RUNNING (pages are numbered `1..pageCount`). -/
def countRunning (v : ViewerState) : ℕ :=
  ((List.range' 1 v.pageCount).filter fun n =>
    match v.pages n with
    | some pd => decide (pd.renderingState = RenderingState.running)
    | none => false).length

/-! ### FindController model

From src/src/lib/find_controller.js. Search state is the controller's own
fields; DOM highlight/scroll effects mutate none of them and are not
modelled. -/

/-- The `FindState` (find_controller.js lines 12-17). -/
inductive FindSt where
  | found
  | notFound
  | wrapped
  | pending
deriving DecidableEq, Repr

/-- One match object `{ pageNumber, startOffset, endOffset, text }`
(find_controller.js lines 322-327). `mid` models JS object identity: every
allocated match object is distinct, which is what `Array.prototype.indexOf`
(strict equality) keys on. -/
structure FindMatch where
  pageNumber : ℕ
  startOffset : ℕ
  endOffset : ℕ
  text : String
  mid : ℕ
deriving DecidableEq, Repr

/-- The sort order of `_sortMatchesAndFixIndex`'s comparator
(find_controller.js lines 343-348): by page number, then by start offset. -/
def matchLE (a b : FindMatch) : Prop :=
  a.pageNumber < b.pageNumber ∨ (a.pageNumber = b.pageNumber ∧ a.startOffset ≤ b.startOffset)

instance : DecidableRel matchLE := fun a b => by
  unfold matchLE
  infer_instance

instance : IsTotal FindMatch matchLE :=
  ⟨by intro a b; unfold matchLE; omega⟩

instance : IsTrans FindMatch matchLE :=
  ⟨by intro a b c; unfold matchLE; omega⟩

/-- The `Array.prototype.indexOf` with strict (object-identity) equality,
modelled through the `mid` tokens; `-1` when absent. -/
def jsIndexOf (l : List FindMatch) (m : FindMatch) : Int :=
  match l.findIdx? (fun x => x.mid == m.mid) with
  | some i => (i : Int)
  | none => -1

/-- The `FindController._sortMatchesAndFixIndex` (find_controller.js lines
338-354): remember the current match object when the index is valid
(`matches[i]` is `undefined`, hence falsy, past the end), stably sort by
`(pageNumber, startOffset)` (`Array.prototype.sort` is stable; modelled by
insertion sort), then re-resolve the index of the remembered object. -/
def sortMatchesAndFixIndex (matchList : List FindMatch) (currentMatchIndex : Int) :
    List FindMatch × Int :=
  let currentMatch : Option FindMatch :=
    if 0 ≤ currentMatchIndex then matchList.get? currentMatchIndex.toNat else none
  let sorted := List.insertionSort matchLE matchList
  match currentMatch with
  | some m => (sorted, jsIndexOf sorted m)
  | none => (sorted, currentMatchIndex)

/-- JS regex `\w` word character: `[A-Za-z0-9_]`. -/
def wordChar (c : Char) : Bool := c.isAlphanum || c == '_'

/-- A `\b` word boundary between two optional characters: exactly one side is
a word character (a missing character counts as non-word). -/
def isBoundary (left right : Option Char) : Bool :=
  (left.elim false wordChar) != (right.elim false wordChar)

/-- Whether the search pattern matches at the current text position. After
`_escapeRegExp` the query is a literal, so the regex of `_searchPage`
(find_controller.js lines 308-314) matches exactly where the query is a
prefix of the remaining text; `entireWord` adds the two `\b` assertions. -/
def matchAt (entireWord : Bool) (pat : List Char) (prev : Option Char)
    (text : List Char) : Bool :=
  !pat.isEmpty && pat.isPrefixOf text &&
    (!entireWord ||
      (isBoundary prev pat.head? && isBoundary pat.getLast? (text.get? pat.length)))

/-- The `regex.exec` loop of `_searchPage` (find_controller.js lines
313-328): scan left to right; positions inside an already-recorded match are
skipped (`g`-flag searches resume at `lastIndex`, so matches never overlap);
each match is recorded as its `(startOffset, endOffset)` pair. -/
def execScan (entireWord : Bool) (pat : List Char) :
    List Char → Option Char → ℕ → ℕ → List (ℕ × ℕ)
  | [], _, _, _ => []
  | c :: rest, prev, skip, i =>
    match skip with
    | s + 1 => execScan entireWord pat rest (some c) s (i + 1)
    | 0 =>
      if matchAt entireWord pat prev (c :: rest) then
        (i, i + pat.length) :: execScan entireWord pat rest (some c) (pat.length - 1) (i + 1)
      else
        execScan entireWord pat rest (some c) 0 (i + 1)

/-- The `String.toLowerCase` modelled character-wise; preserves length, which is
what the offset bookkeeping relies on. -/
def jsToLower (s : List Char) : List Char := s.map Char.toLower

/-- The `String.substring(start, stop)`. -/
def jsSubstring (s : List Char) (start stop : ℕ) : String :=
  String.mk ((s.drop start).take (stop - start))

/-- The `FindController._searchPage` (find_controller.js lines 299-332): case-fold
query and page text unless case-sensitive, scan, and allocate one match
object per occurrence. Fresh identity tokens count up from `midStart`. -/
def searchPage (caseSensitive entireWord : Bool) (query : String) (pageNum : ℕ)
    (pageText : String) (midStart : ℕ) : List FindMatch :=
  let q := if caseSensitive then query.toList else jsToLower query.toList
  let searchText := if caseSensitive then pageText.toList else jsToLower pageText.toList
  (execScan entireWord q searchText none 0 0).enum.map fun oe =>
    ⟨pageNum, oe.2.1, oe.2.2, jsSubstring pageText.toList oe.2.1 oe.2.2, midStart + oe.1⟩

/-- The `this.pageContents.get(pageNum)` on the association-list model of the
Map. -/
def lookupPage (contents : List (ℕ × String)) (pageNum : ℕ) : Option String :=
  (contents.find? (fun e => e.1 == pageNum)).map Prod.snd

/-- The `FindController` fields driving search state (find_controller.js
lines 19-44). `pageContents` maps page number to that page's extracted
string (its `str` field). -/
structure FCState where
  query : String
  caseSensitive : Bool
  entireWord : Bool
  highlightAll : Bool
  matchList : List FindMatch
  currentMatchIndex : Int
  state : FindSt
  extractionComplete : Bool
  pageContents : List (ℕ × String)
deriving DecidableEq, Repr

/-- The `FindController._searchExtractedPages` (find_controller.js lines
285-293): reset the match list, then search the extracted pages in
ascending page order. -/
def searchExtractedPages (s : FCState) : List FindMatch :=
  let pageNumbers := List.insertionSort (· ≤ ·) (s.pageContents.map Prod.fst)
  pageNumbers.foldl
    (fun acc pageNum =>
      match lookupPage s.pageContents pageNum with
      | none => acc
      | some pageText =>
        acc ++ searchPage s.caseSensitive s.entireWord s.query pageNum pageText acc.length)
    []

/-- The options object of `find` (find_controller.js lines 189-198), with the
fields resolved the way the source reads them (`|| false`, `!== false`). -/
structure FindOptions where
  caseSensitive : Bool
  entireWord : Bool
  highlightAll : Bool
  findPrevious : Bool
deriving DecidableEq, Repr

/-- The `FindController.find` (find_controller.js lines 189-255) on the modelled
state: empty query clears; a changed query or options re-searches the
already-extracted pages; otherwise navigate by ±1 with wraparound. The
highlight update, scroll-to-match and `onUpdateState` calls touch no modelled
field, and `_ensureTextExtraction` only starts the background extraction
task. -/
def find (s : FCState) (query : String) (options : FindOptions) : FCState :=
  let queryChanged := query ≠ s.query
  let optionsChanged :=
    options.caseSensitive ≠ s.caseSensitive ∨ options.entireWord ≠ s.entireWord
  let s1 : FCState := { s with
    query := query,
    caseSensitive := options.caseSensitive,
    entireWord := options.entireWord,
    highlightAll := options.highlightAll }
  if query = "" then
    { s1 with matchList := [], currentMatchIndex := -1, state := FindSt.pending }
  else if queryChanged ∨ optionsChanged then
    let s2 : FCState := { s1 with matchList := [], currentMatchIndex := -1 }
    let s3 : FCState := { s2 with matchList := searchExtractedPages s2 }
    if 0 < s3.matchList.length then
      { s3 with currentMatchIndex := 0, state := FindSt.found }
    else
      { s3 with
        currentMatchIndex := -1,
        state := if s3.extractionComplete then FindSt.notFound else FindSt.pending }
  else
    if 0 < s1.matchList.length then
      if options.findPrevious then
        let idx := s1.currentMatchIndex - 1
        if idx < 0 then
          { s1 with
            currentMatchIndex := (s1.matchList.length : Int) - 1,
            state := FindSt.wrapped }
        else { s1 with currentMatchIndex := idx, state := FindSt.found }
      else
        let idx := s1.currentMatchIndex + 1
        if (s1.matchList.length : Int) ≤ idx then
          { s1 with currentMatchIndex := 0, state := FindSt.wrapped }
        else { s1 with currentMatchIndex := idx, state := FindSt.found }
    else s1

/-- The `FindController.findNext` (find_controller.js lines 260-267). -/
def findNext (s : FCState) : FCState :=
  find s s.query ⟨s.caseSensitive, s.entireWord, s.highlightAll, false⟩

/-- The `FindController.findPrevious` (find_controller.js lines 272-279). -/
def findPrevious (s : FCState) : FCState :=
  find s s.query ⟨s.caseSensitive, s.entireWord, s.highlightAll, true⟩

/-! ### Concrete fixtures used by the per-claim closed statements -/

/-- Two-page viewer, both pages INITIAL, display scale 1. -/
def twoPageViewer : ViewerState :=
  ⟨2, 1, fun n => if n = 1 ∨ n = 2 then some ⟨RenderingState.initial, none⟩ else none⟩

/-- Visible range covering pages 1-2, scrolling down. -/
def vis12 : VisibleRange := ⟨1, 2, true⟩

/-- Render-outcome oracle on which only page 1 fails. -/
def failPage1 : ℕ → Bool := fun p => p == 1

/-- Ten-page viewer, all pages INITIAL, display scale 1. -/
def tenPageViewer : ViewerState :=
  ⟨10, 1, fun n => if 1 ≤ n ∧ n ≤ 10 then some ⟨RenderingState.initial, none⟩ else none⟩

/-- Visible range covering pages 4-6, scrolling down. -/
def vis46 : VisibleRange := ⟨4, 6, true⟩

/-- Two-page system state with no render in flight. -/
def c2Start : SysState :=
  ⟨⟨2, 1, fun n => if n = 1 ∨ n = 2 then some ⟨RenderingState.initial, none⟩ else none⟩, []⟩

/-- After one `renderHighestPriority` invocation suspends awaiting page 1. -/
def c2Mid : SysState := triggerStep c2Start ⟨1, 2, true⟩

/-- After a second invocation (scroll event) arrives while page 1 is still
rendering. -/
def c2End : SysState := triggerStep c2Mid ⟨1, 2, true⟩

/-- Concrete match objects with distinct identities, listed out of order. -/
def c4Matches : List FindMatch :=
  [⟨2, 10, 12, "ab", 0⟩, ⟨1, 5, 7, "cd", 1⟩, ⟨1, 20, 22, "ef", 2⟩]

/-- Three concrete match objects on page 1 with distinct identities. -/
def c5Match (k : ℕ) : FindMatch := ⟨1, 5 * k, 5 * k + 1, "a", k⟩

/-- Find-controller state with three matches, the last one current. -/
def c5State : FCState :=
  ⟨"a", false, false, true, [c5Match 0, c5Match 1, c5Match 2], 2, FindSt.found, false,
   [(1, "a b a c a")]⟩

/-! ## Theorems

Supporting lemmas first, then one theorem per claim (with witnesses and
counterexamples where required). -/

theorem mergeInto_length {result : List DRect} {rect : DRect} {result2 : List DRect}
    (h : mergeInto result rect = some result2) : result2.length = result.length := by
  induction result generalizing result2 with
  | nil => simp [mergeInto] at h
  | cons existing rest ih =>
    by_cases hm : shouldMerge rect existing
    · simp [mergeInto, hm] at h
      subst h
      simp
    · simp [mergeInto, hm] at h
      obtain ⟨r2, hr2, hcons⟩ := h
      subst hcons
      simp [ih hr2]

theorem mergePassAux_spec (w : List DRect) : ∀ (res : List DRect) (flag : Bool),
    (mergePassAux w res flag).1.length ≤ res.length + w.length ∧
    ((mergePassAux w res flag).2 = true →
      flag = true ∨ (mergePassAux w res flag).1.length < res.length + w.length) := by
  induction w with
  | nil => intro res flag; simp [mergePassAux]
  | cons rect rest ih =>
    intro res flag
    have hc : (rect :: rest).length = rest.length + 1 := by simp
    cases hmi : mergeInto res rect with
    | some result2 =>
      have hlen := mergeInto_length hmi
      have h := ih result2 true
      constructor
      · simp only [mergePassAux, hmi]
        omega
      · intro _
        right
        simp only [mergePassAux, hmi]
        omega
    | none =>
      have h := ih (res ++ [rect]) flag
      have hl : (res ++ [rect]).length = res.length + 1 := by simp
      constructor
      · simp only [mergePassAux, hmi]
        omega
      · intro ht
        simp only [mergePassAux, hmi] at ht ⊢
        rcases (h.2 ht) with h1 | h2
        · exact Or.inl h1
        · right; omega

theorem mergePass_length_lt {w : List DRect} (h : (mergePass w).2 = true) :
    (mergePass w).1.length < w.length := by
  have := mergePassAux_spec w [] false
  rcases this.2 h with h1 | h2
  · exact absurd h1 (by simp)
  · simpa using h2

/-- A pass that merged nothing returned its input unchanged: each rect was
pushed onto `result` as a (value) copy. -/
theorem mergePassAux_no_merge (w : List DRect) : ∀ res : List DRect,
    (mergePassAux w res false).2 = false → (mergePassAux w res false).1 = res ++ w := by
  induction w with
  | nil => intro res _; simp [mergePassAux]
  | cons rect rest ih =>
    intro res hf
    cases hmi : mergeInto res rect with
    | some result2 =>
      exfalso
      simp only [mergePassAux, hmi] at hf
      -- once the flag is true it stays true
      have : ∀ (w2 res2 : List DRect), (mergePassAux w2 res2 true).2 = true := by
        intro w2
        induction w2 with
        | nil => intro res2; simp [mergePassAux]
        | cons a b ihb =>
          intro res2
          cases h2 : mergeInto res2 a with
          | some r2 => simp only [mergePassAux, h2]; exact ihb r2
          | none => simp only [mergePassAux, h2]; exact ihb (res2 ++ [a])
      rw [this rest result2] at hf
      exact Bool.true_eq_false.mp hf
    | none =>
      simp only [mergePassAux, hmi] at hf ⊢
      rw [ih (res ++ [rect]) hf]
      simp

theorem mergePass_no_merge {w : List DRect} (h : (mergePass w).2 = false) :
    (mergePass w).1 = w := by
  simpa using mergePassAux_no_merge w [] h


/-- Running the merge loop with fuel at least `working.length` reaches the
`merged = false` exit condition: a further pass over the result merges
nothing and leaves it unchanged. -/
theorem mergeLoopFuel_fixpoint : ∀ (fuel : ℕ) (working : List DRect),
    working.length ≤ fuel →
    mergePass (mergeLoopFuel fuel working) = (mergeLoopFuel fuel working, false) := by
  intro fuel
  induction fuel with
  | zero =>
    intro working hw
    have : working = [] := List.length_eq_zero.mp (Nat.le_zero.mp hw)
    subst this
    simp [mergeLoopFuel, mergePass, mergePassAux]
  | succ n ih =>
    intro working hw
    by_cases hp : (mergePass working).2 = true
    · have hlt := mergePass_length_lt hp
      simp only [mergeLoopFuel, hp, if_true]
      exact ih (mergePass working).1 (by omega)
    · have hfalse : (mergePass working).2 = false := by
        cases h : (mergePass working).2
        · rfl
        · exact absurd h hp
      simp only [mergeLoopFuel, hfalse]
      rw [mergePass_no_merge hfalse]
      exact Prod.ext (mergePass_no_merge hfalse) hfalse

/-- A list on which a merge pass merges nothing is left unchanged by
`mergeOverlappingRects`. -/
theorem mergeOverlappingRects_of_fixpoint {w : List DRect}
    (hfix : mergePass w = (w, false)) : mergeOverlappingRects w = w := by
  cases w with
  | nil => rfl
  | cons a rest =>
    show mergeOverlappingRects (a :: rest) = a :: rest
    simp only [mergeOverlappingRects, List.isEmpty_cons, Bool.false_eq_true, if_false,
      List.length_cons]
    simp [mergeLoopFuel, hfix]

/-- The `_mergeOverlappingRects` is a fixed point: re-merging its own output
changes nothing. -/
theorem mergeOverlappingRects_idem (rects : List DRect) :
    mergeOverlappingRects (mergeOverlappingRects rects) = mergeOverlappingRects rects := by
  cases rects with
  | nil => rfl
  | cons a rest =>
    have hfix : mergePass (mergeOverlappingRects (a :: rest)) =
        (mergeOverlappingRects (a :: rest), false) := by
      simp only [mergeOverlappingRects, List.isEmpty_cons, Bool.false_eq_true, if_false]
      exact mergeLoopFuel_fixpoint _ _ le_rfl
    exact mergeOverlappingRects_of_fixpoint hfix

/-! ### Geometry claims -/

theorem quadToDRect_rectToQuad (rect : DRect) : quadToDRect (rectToQuad rect) = rect := rfl

/-- C7: The rectangle merge performed by `selectionRectsToQuads` is a fixed
point: re-merging the rect set read back off its own output quads yields the
same set, and more generally `_mergeOverlappingRects` applied to its own
output changes nothing. -/
theorem merge_fixed_point (rects : List (SRect ℚ)) (pageRect : SRect ℚ)
    (scale : ℚ) (rs : List DRect) :
    mergeOverlappingRects ((selectionRectsToQuads rects pageRect scale).map quadToDRect) =
      (selectionRectsToQuads rects pageRect scale).map quadToDRect ∧
    mergeOverlappingRects (mergeOverlappingRects rs) = mergeOverlappingRects rs := by
  constructor
  · have hmap : (selectionRectsToQuads rects pageRect scale).map quadToDRect =
        mergeOverlappingRects (rectArray rects pageRect scale) := by
      simp [selectionRectsToQuads, List.map_map, Function.comp_def, quadToDRect_rectToQuad]
    rw [hmap]
    exact mergeOverlappingRects_idem _
  · exact mergeOverlappingRects_idem rs

/-- C9: `documentToScreen (screenToDocument p)` recovers `p` exactly (over the
rationals) for every page with known container geometry and positive display
scale. -/
theorem pdfToScreen_screenToPdf (ctx : PageCtx) (p : Pt ℚ) (hscale : 0 < ctx.scale) :
    pdfToScreen ctx (screenToPdf ctx p) = p := by
  have hne : ctx.scale ≠ 0 := ne_of_gt hscale
  cases p with
  | mk x y =>
    simp only [screenToPdf, pdfToScreen, Pt.mk.injEq]
    constructor <;> field_simp

theorem pdfToScreen_screenToPdf_witness :
    (0 : ℚ) < 2 ∧
    pdfToScreen ⟨⟨5, 7, 100, 200⟩, 2⟩ (screenToPdf ⟨⟨5, 7, 100, 200⟩, 2⟩ ⟨3, 4⟩) = ⟨3, 4⟩ :=
  ⟨by norm_num, pdfToScreen_screenToPdf ⟨⟨5, 7, 100, 200⟩, 2⟩ ⟨3, 4⟩ (by norm_num)⟩

theorem rectArray_cons (r : SRect ℚ) (rest : List (SRect ℚ)) (pageRect : SRect ℚ) (scale : ℚ) :
    rectArray (r :: rest) pageRect scale =
      (if screenFilter pageRect r then
        (if docFilter (toDocRect pageRect scale r) then [toDocRect pageRect scale r] else [])
       else []) ++ rectArray rest pageRect scale := by
  by_cases h1 : screenFilter pageRect r
  · by_cases h2 : docFilter (toDocRect pageRect scale r) <;>
      simp [rectArray, h1, h2, List.filter_cons]
  · simp [rectArray, h1, List.filter_cons]

/-- C10: a screen rect that survives the pixel-size and page-bounds filter and
is larger than the minimum size in document units is nevertheless discarded
whenever its document-unit left and top are both below 1: it contributes no
quad, whatever the other rects are. -/
theorem phantom_rect_discarded (pageRect : SRect ℚ) (scale : ℚ) (r : SRect ℚ)
    (rest : List (SRect ℚ))
    (hscreen : screenFilter pageRect r = true)
    (hw : minSize ≤ (toDocRect pageRect scale r).right - (toDocRect pageRect scale r).left)
    (hh : minSize ≤ (toDocRect pageRect scale r).bottom - (toDocRect pageRect scale r).top)
    (hl : (toDocRect pageRect scale r).left < minSize)
    (ht : (toDocRect pageRect scale r).top < minSize) :
    selectionRectsToQuads (r :: rest) pageRect scale =
      selectionRectsToQuads rest pageRect scale := by
  have hdf : docFilter (toDocRect pageRect scale r) = false := by
    simp only [docFilter]
    rw [if_neg (by push_neg; constructor <;> linarith), if_pos ⟨hl, ht⟩]
  simp [selectionRectsToQuads, rectArray_cons, hscreen, hdf]

theorem phantom_rect_discarded_witness :
    screenFilter ⟨0, 0, 100, 100⟩ ⟨1/2, 1/2, 11/2, 11/2⟩ = true ∧
    minSize ≤ (toDocRect ⟨0, 0, 100, 100⟩ 1 ⟨1/2, 1/2, 11/2, 11/2⟩).right -
      (toDocRect ⟨0, 0, 100, 100⟩ 1 ⟨1/2, 1/2, 11/2, 11/2⟩).left ∧
    (toDocRect ⟨0, 0, 100, 100⟩ 1 ⟨1/2, 1/2, 11/2, 11/2⟩).left < minSize ∧
    (toDocRect ⟨0, 0, 100, 100⟩ 1 ⟨1/2, 1/2, 11/2, 11/2⟩).top < minSize ∧
    selectionRectsToQuads [⟨1/2, 1/2, 11/2, 11/2⟩] ⟨0, 0, 100, 100⟩ 1 = [] :=
  ⟨by norm_num [screenFilter], by norm_num [toDocRect, minSize],
   by norm_num [toDocRect, minSize], by norm_num [toDocRect, minSize],
   (phantom_rect_discarded ⟨0, 0, 100, 100⟩ 1 ⟨1/2, 1/2, 11/2, 11/2⟩ []
      (by norm_num [screenFilter]) (by norm_num [toDocRect, minSize])
      (by norm_num [toDocRect, minSize]) (by norm_num [toDocRect, minSize])
      (by norm_num [toDocRect, minSize]))⟩

theorem screenFilter_scale {k : ℚ} (hk : 0 < k) (pageRect r : SRect ℚ)
    (hpix : (r.right - r.left < 1 ∨ r.bottom - r.top < 1) ↔
      (k * r.right - k * r.left < 1 ∨ k * r.bottom - k * r.top < 1)) :
    screenFilter (scaleSRect k pageRect) (scaleSRect k r) = screenFilter pageRect r := by
  simp only [screenFilter, scaleSRect, gt_iff_lt, mul_lt_mul_left hk]
  rw [if_congr hpix.symm rfl rfl]

theorem toDocRect_scale {k scale : ℚ} (hk : k ≠ 0) (pageRect r : SRect ℚ) :
    toDocRect (scaleSRect k pageRect) (k * scale) (scaleSRect k r) =
      toDocRect pageRect scale r := by
  have key : ∀ x ox : ℚ, (k * x - k * ox) / (k * scale) = (x - ox) / scale := by
    intro x ox
    rw [← mul_sub, mul_div_mul_left _ _ hk]
  simp only [toDocRect, scaleSRect, DRect.mk.injEq]
  exact ⟨key _ _, key _ _, key _ _, key _ _⟩

theorem rectArray_scale {k scale : ℚ} (hk : 0 < k)
    (rects : List (SRect ℚ)) (pageRect : SRect ℚ)
    (hpix : ∀ r ∈ rects, ((r.right - r.left < 1 ∨ r.bottom - r.top < 1) ↔
      (k * r.right - k * r.left < 1 ∨ k * r.bottom - k * r.top < 1))) :
    rectArray (rects.map (scaleSRect k)) (scaleSRect k pageRect) (k * scale) =
      rectArray rects pageRect scale := by
  induction rects with
  | nil => rfl
  | cons r rest ih =>
    rw [List.map_cons, rectArray_cons, rectArray_cons,
      screenFilter_scale hk pageRect r (hpix r (by simp)),
      toDocRect_scale (ne_of_gt hk),
      ih (fun x hx => hpix x (by simp [hx]))]

/-- C8 (amended): `selectionRectsToQuads` is scale-independent as long as the
initial screen-pixel degenerate-rect filter (`width < 1 || height < 1`,
applied before scale division) classifies each rect the same way at both
scales; the document-unit thresholds and the page-bounds test are invariant
under jointly scaling the rects, the page rect and the display scale by
`k > 0`. -/
theorem selectionRectsToQuads_scale_independent (k scale : ℚ)
    (rects : List (SRect ℚ)) (pageRect : SRect ℚ) (hk : 0 < k)
    (hpix : ∀ r ∈ rects, ((r.right - r.left < 1 ∨ r.bottom - r.top < 1) ↔
      (k * r.right - k * r.left < 1 ∨ k * r.bottom - k * r.top < 1))) :
    selectionRectsToQuads (rects.map (scaleSRect k)) (scaleSRect k pageRect) (k * scale) =
      selectionRectsToQuads rects pageRect scale := by
  unfold selectionRectsToQuads
  rw [rectArray_scale hk rects pageRect hpix]

theorem selectionRectsToQuads_scale_independent_witness :
    (0 : ℚ) < 2 ∧
    (∀ r ∈ [(⟨10, 10, 13, 13⟩ : SRect ℚ)],
      ((r.right - r.left < 1 ∨ r.bottom - r.top < 1) ↔
        (2 * r.right - 2 * r.left < 1 ∨ 2 * r.bottom - 2 * r.top < 1))) ∧
    selectionRectsToQuads ([(⟨10, 10, 13, 13⟩ : SRect ℚ)].map (scaleSRect 2))
        (scaleSRect 2 ⟨0, 0, 1000, 1000⟩) (2 * 1) =
      selectionRectsToQuads [⟨10, 10, 13, 13⟩] ⟨0, 0, 1000, 1000⟩ 1 :=
  ⟨by norm_num, by intro r hr; simp only [List.mem_singleton] at hr; subst hr; norm_num,
   selectionRectsToQuads_scale_independent 2 1 [⟨10, 10, 13, 13⟩] ⟨0, 0, 1000, 1000⟩
     (by norm_num)
     (by intro r hr; simp only [List.mem_singleton] at hr; subst hr; norm_num)⟩

/-- C8 counterexample: with the page and the selection rect scaled down by
`k = 1/4` (and the display scale scaled accordingly, `1 → 1/4`), a rect of
document-unit size 3×3 is dropped by the screen-pixel filter (its screen size
becomes 0.75 px), so the two runs disagree — the claim as stated (for every
scale pair) is false. -/
theorem selectionRectsToQuads_scale_counterexample :
    ¬ (selectionRectsToQuads ([(⟨10, 10, 13, 13⟩ : SRect ℚ)].map (scaleSRect (1/4)))
        (scaleSRect (1/4) ⟨0, 0, 1000, 1000⟩) ((1/4) * 1) =
       selectionRectsToQuads [⟨10, 10, 13, 13⟩] ⟨0, 0, 1000, 1000⟩ 1) := by
  have hleft : selectionRectsToQuads ([(⟨10, 10, 13, 13⟩ : SRect ℚ)].map (scaleSRect (1/4)))
      (scaleSRect (1/4) ⟨0, 0, 1000, 1000⟩) ((1/4) * 1) = [] := by
    norm_num [selectionRectsToQuads, rectArray, screenFilter, scaleSRect,
      mergeOverlappingRects]
  have hright : selectionRectsToQuads [(⟨10, 10, 13, 13⟩ : SRect ℚ)] ⟨0, 0, 1000, 1000⟩ 1 =
      [rectToQuad ⟨10, 13, 10, 13⟩] := by
    norm_num [selectionRectsToQuads, rectArray, screenFilter, docFilter, toDocRect, minSize,
      mergeOverlappingRects, mergeLoopFuel, mergePass, mergePassAux, mergeInto]
  rw [hleft, hright]
  simp

theorem docFilter_sized {r : DRect} (h : docFilter r = true) : sizedRect r := by
  by_cases h1 : r.right - r.left < minSize ∨ r.bottom - r.top < minSize
  · simp [docFilter, h1] at h
  · push_neg at h1
    exact ⟨h1.1, h1.2⟩

theorem rectArray_sized {rects : List (SRect ℚ)} {pageRect : SRect ℚ} {scale : ℚ}
    {d : DRect} (hd : d ∈ rectArray rects pageRect scale) : sizedRect d :=
  docFilter_sized (List.of_mem_filter hd)

theorem unionRect_sized {a b : DRect} (ha : sizedRect a) (_hb : sizedRect b) :
    sizedRect (unionRect a b) := by
  obtain ⟨ha1, ha2⟩ := ha
  constructor
  · have h1 : min a.left b.left ≤ a.left := min_le_left _ _
    have h2 : a.right ≤ max a.right b.right := le_max_left _ _
    simp only [unionRect]
    linarith
  · have h1 : min a.top b.top ≤ a.top := min_le_left _ _
    have h2 : a.bottom ≤ max a.bottom b.bottom := le_max_left _ _
    simp only [unionRect]
    linarith

theorem mergeInto_sized {res : List DRect} {rect : DRect} {res2 : List DRect}
    (hres : ∀ x ∈ res, sizedRect x) (hrect : sizedRect rect)
    (h : mergeInto res rect = some res2) : ∀ x ∈ res2, sizedRect x := by
  induction res generalizing res2 with
  | nil => simp [mergeInto] at h
  | cons e rest ih =>
    by_cases hm : shouldMerge rect e
    · simp only [mergeInto, hm, if_true, Option.some.injEq] at h
      subst h
      intro x hx
      rcases List.mem_cons.mp hx with hx | hx
      · subst hx
        exact unionRect_sized (hres e (by simp)) hrect
      · exact hres x (by simp [hx])
    · simp [mergeInto, hm] at h
      obtain ⟨r2, hr2, hcons⟩ := h
      subst hcons
      intro x hx
      rcases List.mem_cons.mp hx with hx | hx
      · exact hres x (by simp [hx])
      · exact ih (fun y hy => hres y (by simp [hy])) hr2 x hx

theorem mergePassAux_sized : ∀ (w res : List DRect) (flag : Bool),
    (∀ x ∈ res, sizedRect x) → (∀ x ∈ w, sizedRect x) →
    ∀ x ∈ (mergePassAux w res flag).1, sizedRect x := by
  intro w
  induction w with
  | nil =>
    intro res flag hres _ x hx
    simp only [mergePassAux] at hx
    exact hres x hx
  | cons rect rest ih =>
    intro res flag hres hw x hx
    have hrect : sizedRect rect := hw rect (by simp)
    have hrest : ∀ y ∈ rest, sizedRect y := fun y hy => hw y (by simp [hy])
    cases hmi : mergeInto res rect with
    | some res2 =>
      simp only [mergePassAux, hmi] at hx
      exact ih res2 true (mergeInto_sized hres hrect hmi) hrest x hx
    | none =>
      simp only [mergePassAux, hmi] at hx
      refine ih (res ++ [rect]) flag ?_ hrest x hx
      intro y hy
      rcases List.mem_append.mp hy with hy | hy
      · exact hres y hy
      · simp only [List.mem_singleton] at hy
        subst hy
        exact hrect

theorem mergeLoopFuel_sized : ∀ (fuel : ℕ) (w : List DRect),
    (∀ x ∈ w, sizedRect x) → ∀ x ∈ mergeLoopFuel fuel w, sizedRect x := by
  intro fuel
  induction fuel with
  | zero =>
    intro w hw
    simpa [mergeLoopFuel] using hw
  | succ n ih =>
    intro w hw
    have hpass : ∀ x ∈ (mergePass w).1, sizedRect x :=
      mergePassAux_sized w [] false (by simp) hw
    by_cases hp : (mergePass w).2 = true <;> simp only [mergeLoopFuel, hp, if_true,
      Bool.false_eq_true, if_false]
    · exact ih _ hpass
    · cases hb : (mergePass w).2
      · simpa [hb] using hpass
      · exact absurd hb hp

theorem mergeOverlappingRects_sized {rs : List DRect} (h : ∀ x ∈ rs, sizedRect x) :
    ∀ x ∈ mergeOverlappingRects rs, sizedRect x := by
  cases rs with
  | nil => simp [mergeOverlappingRects]
  | cons a rest =>
    simp only [mergeOverlappingRects, List.isEmpty_cons, Bool.false_eq_true, if_false]
    exact mergeLoopFuel_sized _ _ h

/-- Evaluation of `strokesPathToQuads` on one horizontal left-to-right
segment: the quad lists the two offset corners at the start point first
(`p1` above, `p2` below), then the two at the end point (`p3` above, `p4`
below). -/
theorem strokesPathToQuads_pair (pageRect : SRect ℝ) (scale thickness : ℝ) (a b : Pt ℝ)
    (hy : (a.y - pageRect.top) / scale = (b.y - pageRect.top) / scale)
    (hx : (a.x - pageRect.left) / scale < (b.x - pageRect.left) / scale) :
    strokesPathToQuads [a, b] thickness pageRect scale =
      [⟨⟨(a.x - pageRect.left) / scale,
          (a.y - pageRect.top) / scale - thickness / 2 / scale⟩,
        ⟨(a.x - pageRect.left) / scale,
          (a.y - pageRect.top) / scale + thickness / 2 / scale⟩,
        ⟨(b.x - pageRect.left) / scale,
          (a.y - pageRect.top) / scale - thickness / 2 / scale⟩,
        ⟨(b.x - pageRect.left) / scale,
          (a.y - pageRect.top) / scale + thickness / 2 / scale⟩⟩] := by
  have hdy : (b.y - pageRect.top) / scale - (a.y - pageRect.top) / scale = 0 := by
    rw [← hy]
    ring
  have hdx : 0 < (b.x - pageRect.left) / scale - (a.x - pageRect.left) / scale :=
    sub_pos.mpr hx
  have hlen : Real.sqrt
      (((b.x - pageRect.left) / scale - (a.x - pageRect.left) / scale) *
          ((b.x - pageRect.left) / scale - (a.x - pageRect.left) / scale) +
        ((b.y - pageRect.top) / scale - (a.y - pageRect.top) / scale) *
          ((b.y - pageRect.top) / scale - (a.y - pageRect.top) / scale)) =
      (b.x - pageRect.left) / scale - (a.x - pageRect.left) / scale := by
    rw [hdy, mul_zero, add_zero]
    exact Real.sqrt_mul_self hdx.le
  have hq : strokeQuad pageRect scale (thickness / 2 / scale) a b =
      some ⟨⟨(a.x - pageRect.left) / scale,
              (a.y - pageRect.top) / scale - thickness / 2 / scale⟩,
            ⟨(a.x - pageRect.left) / scale,
              (a.y - pageRect.top) / scale + thickness / 2 / scale⟩,
            ⟨(b.x - pageRect.left) / scale,
              (a.y - pageRect.top) / scale - thickness / 2 / scale⟩,
            ⟨(b.x - pageRect.left) / scale,
              (a.y - pageRect.top) / scale + thickness / 2 / scale⟩⟩ := by
    simp only [strokeQuad, hlen]
    rw [if_neg (ne_of_gt hdx)]
    have hnx : -((b.y - pageRect.top) / scale - (a.y - pageRect.top) / scale) /
        ((b.x - pageRect.left) / scale - (a.x - pageRect.left) / scale) *
        (thickness / 2 / scale) = 0 := by
      rw [hdy]
      simp
    have hny : ((b.x - pageRect.left) / scale - (a.x - pageRect.left) / scale) /
        ((b.x - pageRect.left) / scale - (a.x - pageRect.left) / scale) *
        (thickness / 2 / scale) = thickness / 2 / scale := by
      rw [div_self (ne_of_gt hdx), one_mul]
    rw [hnx, hny]
    simp only [Option.some.injEq, Quad.mk.injEq, Pt.mk.injEq]
    refine ⟨⟨?_, ?_⟩, ⟨?_, ?_⟩, ⟨?_, ?_⟩, ⟨?_, ?_⟩⟩ <;>
      first
      | trivial
      | ring1
      | linear_combination -hy
  simp only [strokesPathToQuads, List.tail_cons, List.zip_cons_cons, List.zip_nil_right,
    List.filterMap_cons, List.filterMap_nil, hq]

/-- C6 (amended): `selectionRectsToQuads` does emit every quad in the
top-left, top-right, bottom-left, bottom-right order, but
`strokesPathToQuads` does not share that winding: its `p1`/`p2` are the two
offset corners at the segment start and `p3`/`p4` the two at the segment
end, so for a horizontal left-to-right stroke `p2` is the corner directly
below `p1` (the bottom-left) and `p3` is the top-right — the two producers'
edge correspondences differ. -/
theorem quad_winding_producers (rects : List (SRect ℚ)) (pageRect : SRect ℚ) (scale : ℚ)
    (pageRectR : SRect ℝ) (scaleR thickness : ℝ) (a b : Pt ℝ)
    (hy : (a.y - pageRectR.top) / scaleR = (b.y - pageRectR.top) / scaleR)
    (hx : (a.x - pageRectR.left) / scaleR < (b.x - pageRectR.left) / scaleR)
    (hth : 0 < thickness) (hsr : 0 < scaleR) :
    (∀ q ∈ selectionRectsToQuads rects pageRect scale, quadWindingTLTRBLBR q) ∧
    (∀ q ∈ strokesPathToQuads [a, b] thickness pageRectR scaleR,
      q.p1.x = q.p2.x ∧ q.p1.y < q.p2.y ∧ q.p1.y = q.p3.y ∧ q.p1.x < q.p3.x ∧
      ¬ quadWindingTLTRBLBR q) := by
  constructor
  · intro q hq
    simp only [selectionRectsToQuads, List.mem_map] at hq
    obtain ⟨d, hd, rfl⟩ := hq
    obtain ⟨h1, h2⟩ :=
      mergeOverlappingRects_sized (fun x hx => rectArray_sized hx) d hd
    have hms : (0 : ℚ) < minSize := by norm_num [minSize]
    exact ⟨rfl, rfl, rfl, rfl, by simp only [rectToQuad]; linarith,
      by simp only [rectToQuad]; linarith⟩
  · intro q hq
    rw [strokesPathToQuads_pair pageRectR scaleR thickness a b hy hx] at hq
    simp only [List.mem_singleton] at hq
    subst hq
    have hpos : 0 < thickness / 2 / scaleR := div_pos (by linarith) hsr
    refine ⟨rfl, by simp only []; linarith, rfl, by simp only []; linarith, ?_⟩
    intro hw
    obtain ⟨hw1, -⟩ := hw
    simp only [] at hw1
    linarith

theorem quad_winding_producers_witness :
    ((⟨0, 0⟩ : Pt ℝ).y - (⟨0, 0, 100, 100⟩ : SRect ℝ).top) / 1 =
      ((⟨10, 0⟩ : Pt ℝ).y - (⟨0, 0, 100, 100⟩ : SRect ℝ).top) / 1 ∧
    ((⟨0, 0⟩ : Pt ℝ).x - (⟨0, 0, 100, 100⟩ : SRect ℝ).left) / 1 <
      ((⟨10, 0⟩ : Pt ℝ).x - (⟨0, 0, 100, 100⟩ : SRect ℝ).left) / 1 ∧
    (0 : ℝ) < 10 ∧ (0 : ℝ) < 1 ∧
    ((∀ q ∈ selectionRectsToQuads [⟨10, 10, 20, 20⟩] ⟨0, 0, 100, 100⟩ 1,
        quadWindingTLTRBLBR q) ∧
     (∀ q ∈ strokesPathToQuads [⟨0, 0⟩, ⟨10, 0⟩] 10 ⟨0, 0, 100, 100⟩ 1,
        q.p1.x = q.p2.x ∧ q.p1.y < q.p2.y ∧ q.p1.y = q.p3.y ∧ q.p1.x < q.p3.x ∧
        ¬ quadWindingTLTRBLBR q)) :=
  ⟨by norm_num, by norm_num, by norm_num, by norm_num,
   quad_winding_producers [⟨10, 10, 20, 20⟩] ⟨0, 0, 100, 100⟩ 1 ⟨0, 0, 100, 100⟩ 1 10
     ⟨0, 0⟩ ⟨10, 0⟩ (by norm_num) (by norm_num) (by norm_num) (by norm_num)⟩

/-- C6 counterexample: the horizontal stroke `(0,0)-(10,0)` of thickness 10
at scale 1 yields the quad `(0,-5), (0,5), (10,-5), (10,5)`: its `p2` is the
corner below `p1`, not the top-right, so the claimed common
top-left/top-right/bottom-left/bottom-right winding fails for
`strokesPathToQuads`. -/
theorem strokes_quad_winding_counterexample :
    strokesPathToQuads [⟨0, 0⟩, ⟨10, 0⟩] 10 ⟨0, 0, 100, 100⟩ 1 =
      [⟨⟨0, -5⟩, ⟨0, 5⟩, ⟨10, -5⟩, ⟨10, 5⟩⟩] ∧
    ¬ quadWindingTLTRBLBR (⟨⟨0, -5⟩, ⟨0, 5⟩, ⟨10, -5⟩, ⟨10, 5⟩⟩ : Quad ℝ) := by
  constructor
  · rw [strokesPathToQuads_pair ⟨0, 0, 100, 100⟩ 1 10 ⟨0, 0⟩ ⟨10, 0⟩ (by norm_num)
      (by norm_num)]
    norm_num
  · intro h
    obtain ⟨h1, -⟩ := h
    simp only [] at h1
    norm_num at h1

/-! ### Scheduler claims -/

theorem scanAsc_not_rendered {v : ViewerState} :
    ∀ {count page p : ℕ}, scanAsc v count page = some p → isPageRendered v p = false := by
  intro count
  induction count with
  | zero =>
    intro page p h
    simp [scanAsc] at h
  | succ n ih =>
    intro page p h
    cases hr : isPageRendered v page with
    | true =>
      simp only [scanAsc, hr, Bool.not_true, Bool.false_eq_true, if_false] at h
      exact ih h
    | false =>
      simp only [scanAsc, hr, Bool.not_false, if_true, Option.some.injEq] at h
      subst h
      exact hr

theorem scanDesc_not_rendered {v : ViewerState} :
    ∀ {count page p : ℕ}, scanDesc v count page = some p → isPageRendered v p = false := by
  intro count
  induction count with
  | zero =>
    intro page p h
    simp [scanDesc] at h
  | succ n ih =>
    intro page p h
    cases hr : isPageRendered v page with
    | true =>
      simp only [scanDesc, hr, Bool.not_true, Bool.false_eq_true, if_false] at h
      exact ih h
    | false =>
      simp only [scanDesc, hr, Bool.not_false, if_true, Option.some.injEq] at h
      subst h
      exact hr

theorem preAfterLoop_not_rendered {v : ViewerState} {last : ℕ} :
    ∀ {remaining i p : ℕ}, preAfterLoop v last i remaining = some p →
      isPageRendered v p = false := by
  intro remaining
  induction remaining with
  | zero =>
    intro i p h
    simp [preAfterLoop] at h
  | succ n ih =>
    intro i p h
    simp only [preAfterLoop] at h
    by_cases hc : last + i ≤ v.pageCount ∧ !isPageRendered v (last + i)
    · rw [if_pos hc] at h
      injection h with h
      subst h
      simpa using hc.2
    · rw [if_neg hc] at h
      exact ih h

theorem preBeforeLoop_not_rendered {v : ViewerState} {first : ℕ} :
    ∀ {remaining i p : ℕ}, preBeforeLoop v first i remaining = some p →
      isPageRendered v p = false := by
  intro remaining
  induction remaining with
  | zero =>
    intro i p h
    simp [preBeforeLoop] at h
  | succ n ih =>
    intro i p h
    simp only [preBeforeLoop] at h
    by_cases hc : 1 ≤ first - i ∧ !isPageRendered v (first - i)
    · rw [if_pos hc] at h
      injection h with h
      subst h
      simpa using hc.2
    · rw [if_neg hc] at h
      exact ih h

theorem getHighestPriorityPage_not_rendered {v : ViewerState} {vis : VisibleRange} {p : ℕ}
    (h : getHighestPriorityPage v vis = some p) : isPageRendered v p = false := by
  simp only [getHighestPriorityPage] at h
  cases hv : (if vis.down then scanAsc v (vis.last + 1 - vis.first) vis.first
      else scanDesc v (vis.last + 1 - vis.first) vis.last) with
  | some q =>
    rw [hv] at h
    injection h with h
    subst h
    by_cases hd : vis.down
    · rw [if_pos hd] at hv
      exact scanAsc_not_rendered hv
    · rw [if_neg hd] at hv
      exact scanDesc_not_rendered hv
  | none =>
    rw [hv] at h
    cases ha : preAfterLoop v vis.last 1 preRenderCount with
    | some q =>
      rw [ha] at h
      injection h with h
      subst h
      exact preAfterLoop_not_rendered ha
    | none =>
      rw [ha] at h
      exact preBeforeLoop_not_rendered h

theorem scanAsc_eq_find {v : ViewerState} :
    ∀ (count page : ℕ), scanAsc v count page =
      (List.range' page count).find? fun q => !isPageRendered v q := by
  intro count
  induction count with
  | zero =>
    intro page
    simp [scanAsc]
  | succ n ih =>
    intro page
    rw [List.range'_succ]
    cases hr : isPageRendered v page with
    | true => simp [scanAsc, hr, List.find?_cons, ih (page + 1)]
    | false => simp [scanAsc, hr, List.find?_cons]

theorem scanDesc_eq_find {v : ViewerState} :
    ∀ (count page : ℕ), count ≤ page + 1 →
      scanDesc v count page =
        ((List.range' (page + 1 - count) count).reverse).find? fun q => !isPageRendered v q := by
  intro count
  induction count with
  | zero =>
    intro page _
    simp [scanDesc]
  | succ n ih =>
    intro page hle
    have hn : n ≤ page := by omega
    have hcat : List.range' (page + 1 - (n + 1)) (n + 1) =
        List.range' (page - n) n ++ [page] := by
      have harith : page - n + 1 * n = page := by omega
      rw [show page + 1 - (n + 1) = page - n from by omega, List.range'_concat, harith]
    rw [hcat, List.reverse_append]
    simp only [List.reverse_singleton, List.singleton_append, List.find?_cons]
    cases hr : isPageRendered v page with
    | true =>
      simp only [scanDesc, hr, Bool.not_true, Bool.false_eq_true, if_false]
      rw [ih (page - 1) (by omega)]
      have heq : List.range' (page - 1 + 1 - n) n = List.range' (page - n) n := by
        rcases Nat.eq_zero_or_pos n with hn0 | hn1
        · subst hn0
          rfl
        · rw [show page - 1 + 1 - n = page - n from by omega]
      rw [heq]
    | false =>
      simp [scanDesc, hr]

theorem preAfterLoop_two (v : ViewerState) (last : ℕ) :
    preAfterLoop v last 1 2 =
      ((List.range' (last + 1) 2).filter fun p =>
        decide (1 ≤ p) && decide (p ≤ v.pageCount)).find? fun q => !isPageRendered v q := by
  have hr : List.range' (last + 1) 2 = [last + 1, last + 2] := rfl
  have hone : (1 : ℕ) ≤ last + 1 := by omega
  have htwo : (1 : ℕ) ≤ last + 2 := by omega
  rw [hr]
  by_cases h1 : last + 1 ≤ v.pageCount <;> by_cases h2 : last + 2 ≤ v.pageCount <;>
    cases hr1 : isPageRendered v (last + 1) <;> cases hr2 : isPageRendered v (last + 2) <;>
    simp [preAfterLoop, h1, h2, hr1, hr2, hone, htwo, List.filter_cons, List.find?_cons]

theorem preBeforeLoop_two (v : ViewerState) (first : ℕ) (hf : first ≤ v.pageCount) :
    preBeforeLoop v first 1 2 =
      (([first - 1, first - 2]).filter fun p =>
        decide (1 ≤ p) && decide (p ≤ v.pageCount)).find? fun q => !isPageRendered v q := by
  have hb1 : first - 1 ≤ v.pageCount := by omega
  have hb2 : first - 2 ≤ v.pageCount := by omega
  by_cases h1 : 1 ≤ first - 1 <;> by_cases h2 : 1 ≤ first - 2 <;>
    cases hr1 : isPageRendered v (first - 1) <;> cases hr2 : isPageRendered v (first - 2) <;>
    simp [preBeforeLoop, h1, h2, hr1, hr2, hb1, hb2, List.filter_cons, List.find?_cons]

/-- The `_getHighestPriorityPage` refines the spec's candidate order: it returns
the first not-satisfied page of `scheduleCandidates` (visible range in
scroll-direction order, then up to two pages after, then up to two before,
clipped to the document). -/
theorem getHighestPriorityPage_eq_find (v : ViewerState) (vis : VisibleRange)
    (h1 : 1 ≤ vis.first) (h2 : vis.first ≤ vis.last) (h3 : vis.last ≤ v.pageCount) :
    getHighestPriorityPage v vis =
      (scheduleCandidates v vis).find? fun q => !isPageRendered v q := by
  simp only [getHighestPriorityPage, scheduleCandidates, List.find?_append]
  have hvis : (if vis.down then scanAsc v (vis.last + 1 - vis.first) vis.first
      else scanDesc v (vis.last + 1 - vis.first) vis.last) =
      ((if vis.down then List.range' vis.first (vis.last + 1 - vis.first)
        else (List.range' vis.first (vis.last + 1 - vis.first)).reverse).find?
          fun q => !isPageRendered v q) := by
    by_cases hd : vis.down
    · simp only [hd, if_true]
      exact scanAsc_eq_find (vis.last + 1 - vis.first) vis.first
    · simp only [hd, if_false]
      have harg : vis.last + 1 - (vis.last + 1 - vis.first) = vis.first := by omega
      rw [scanDesc_eq_find (vis.last + 1 - vis.first) vis.last (by omega), harg]
      simp
  rw [hvis]
  cases hfv : (if vis.down then List.range' vis.first (vis.last + 1 - vis.first)
      else (List.range' vis.first (vis.last + 1 - vis.first)).reverse).find?
        fun q => !isPageRendered v q with
  | some q => simp [Option.or]
  | none =>
    simp only [Option.or_none, Option.none_or]
    rw [show preRenderCount = 2 from rfl, preAfterLoop_two v vis.last,
      preBeforeLoop_two v vis.first (by omega)]
    cases hfa : ((List.range' (vis.last + 1) 2).filter fun p =>
        decide (1 ≤ p) && decide (p ≤ v.pageCount)).find? (fun q => !isPageRendered v q) with
    | some q => simp [Option.or]
    | none => simp [Option.or]

/-- C3: For the 10-page document with visible range 4-6 scrolling down and all
pages unsatisfied, the scheduling loop renders exactly 4, 5, 6, 7, 8, 3, 2
and then declares idle; and in general `_getHighestPriorityPage` picks the
first not-satisfied page of the spec's candidate order (visible pages
ascending when scrolling down, descending otherwise, then up to 2 pages
after `last`, then up to 2 pages before `first`, clipped to the document). -/
theorem scheduling_priority_order :
    ((renderLoop (fun _ => false) tenPageViewer vis46 20).1 = [4, 5, 6, 7, 8, 3, 2] ∧
     (renderLoop (fun _ => false) tenPageViewer vis46 20).2.2 = true) ∧
    ∀ (v : ViewerState) (vis : VisibleRange),
      1 ≤ vis.first → vis.first ≤ vis.last → vis.last ≤ v.pageCount →
      getHighestPriorityPage v vis =
        (scheduleCandidates v vis).find? fun q => !isPageRendered v q :=
  ⟨⟨by decide, by decide⟩, getHighestPriorityPage_eq_find⟩

theorem scheduling_priority_order_witness :
    (1 ≤ vis46.first ∧ vis46.first ≤ vis46.last ∧ vis46.last ≤ tenPageViewer.pageCount) ∧
    getHighestPriorityPage tenPageViewer vis46 =
      (scheduleCandidates tenPageViewer vis46).find? fun q => !isPageRendered tenPageViewer q :=
  ⟨⟨by decide, by decide, by decide⟩,
   scheduling_priority_order.2 tenPageViewer vis46 (by decide) (by decide) (by decide)⟩

/-- C1 counterexample: two unsatisfied pages, page 1's render fails. The
run's trace is `[1]`, the idle path is never reached, and afterwards page 2
still qualifies (`_getHighestPriorityPage` would return it, it is not
satisfied) — yet the loop has stopped: the claim that scheduling continues
with the next qualifying candidate after a failure is false. -/
theorem render_failure_halts_counterexample :
    (renderLoop failPage1 twoPageViewer vis12 10).1 = [1] ∧
    (renderLoop failPage1 twoPageViewer vis12 10).2.2 = false ∧
    getHighestPriorityPage (renderLoop failPage1 twoPageViewer vis12 10).2.1 vis12 = some 1 ∧
    isPageRendered (renderLoop failPage1 twoPageViewer vis12 10).2.1 2 = false := by
  refine ⟨?_, ?_, ?_, ?_⟩ <;> decide

/-- C1 (amended): when the selected page's render fails, that page is reset
to INITIAL (its cached `renderedScale` is kept), and the scheduling run
stops right there: the trace ends with the failed page, no further candidate
is selected, and the idle callback is not armed — rendering resumes only on
the next external trigger. -/
theorem render_failure_resets_and_stops (fail : ℕ → Bool) (v : ViewerState)
    (vis : VisibleRange) (fuel p : ℕ) (pd : PageData)
    (hsel : getHighestPriorityPage v vis = some p) (hf : fail p = true)
    (hpd : v.pages p = some pd) :
    renderLoop fail v vis (fuel + 1) = ([p], renderPageFailure v p, false) ∧
    (renderPageFailure v p).pages p = some ⟨RenderingState.initial, pd.renderedScale⟩ := by
  have hnr := getHighestPriorityPage_not_rendered hsel
  simp only [isPageRendered, hpd] at hnr
  by_cases hrun : pd.renderingState = RenderingState.running
  · simp [hrun] at hnr
  · have hfin : ¬(pd.renderingState = RenderingState.finished ∧
        pd.renderedScale = some v.displayScale) := by
      rintro ⟨hfin, hsc⟩
      simp [hrun, hfin, hsc] at hnr
    constructor
    · simp only [renderLoop, hsel, hf, if_true]
    · simp only [renderPageFailure, hpd]
      rw [if_neg hrun, if_neg hfin]
      simp [setPage]

theorem render_failure_resets_and_stops_witness :
    (getHighestPriorityPage twoPageViewer vis12 = some 1 ∧ failPage1 1 = true ∧
      twoPageViewer.pages 1 = some ⟨RenderingState.initial, none⟩) ∧
    (renderLoop failPage1 twoPageViewer vis12 10 =
      ([1], renderPageFailure twoPageViewer 1, false) ∧
     (renderPageFailure twoPageViewer 1).pages 1 =
      some ⟨RenderingState.initial, none⟩) :=
  ⟨⟨by decide, by decide, by decide⟩,
   render_failure_resets_and_stops failPage1 twoPageViewer vis12 9 1
     ⟨RenderingState.initial, none⟩ (by decide) (by decide) (by decide)⟩

/-- C2 counterexample: from two INITIAL pages, a first
`renderHighestPriority` invocation starts rendering page 1 (RUNNING) and
suspends; a scroll-triggered second invocation then selects page 2 (the
RUNNING page is skipped, but nothing blocks a second start) and marks it
RUNNING too. The resulting state is reachable and has two RUNNING pages, so
the claimed system-wide single-RUNNING invariant is false. -/
theorem two_running_pages_reachable :
    SysReachable c2Start c2End ∧ countRunning c2End.viewer = 2 := by
  constructor
  · exact Relation.ReflTransGen.head (SysStep.trigger c2Start ⟨1, 2, true⟩)
      (Relation.ReflTransGen.single (SysStep.trigger c2Mid ⟨1, 2, true⟩))
  · decide

/-- C2 (amended): the scheduler never *selects* a page that is currently
RUNNING (`_isPageRendered` treats RUNNING as satisfied), so the same page is
never rendered twice concurrently — but re-entrant invocations may start
renders of distinct pages, so more than one page can be RUNNING at once. -/
theorem selection_skips_running (v : ViewerState) (vis : VisibleRange) (p : ℕ)
    (pd : PageData) (hsel : getHighestPriorityPage v vis = some p)
    (hpd : v.pages p = some pd) : pd.renderingState ≠ RenderingState.running := by
  have hnr := getHighestPriorityPage_not_rendered hsel
  intro hrun
  simp only [isPageRendered, hpd] at hnr
  simp [hrun] at hnr

theorem selection_skips_running_witness :
    (getHighestPriorityPage c2Mid.viewer ⟨1, 2, true⟩ = some 2 ∧
      c2Mid.viewer.pages 2 = some ⟨RenderingState.initial, none⟩) ∧
    (⟨RenderingState.initial, none⟩ : PageData).renderingState ≠ RenderingState.running :=
  ⟨⟨by decide, by decide⟩,
   selection_skips_running c2Mid.viewer ⟨1, 2, true⟩ 2 ⟨RenderingState.initial, none⟩
     (by decide) (by decide)⟩

/-! ### Search claims -/

theorem findIdx?_some_of_exists {α : Type} (p : α → Bool) :
    ∀ (l : List α), (∃ x ∈ l, p x = true) →
      ∃ i y, l.findIdx? p = some i ∧ l.get? i = some y ∧ p y = true := by
  intro l
  induction l with
  | nil =>
    rintro ⟨x, hx, -⟩
    simp at hx
  | cons a t ih =>
    rintro ⟨x, hx, hpx⟩
    by_cases hpa : p a = true
    · exact ⟨0, a, by simp [List.findIdx?_cons, hpa], by simp, hpa⟩
    · have hxt : x ∈ t := by
        rcases List.mem_cons.mp hx with rfl | h
        · exact absurd hpx hpa
        · exact h
      obtain ⟨i, y, hfi, hgy, hpy⟩ := ih ⟨x, hxt, hpx⟩
      refine ⟨i + 1, y, ?_, ?_, hpy⟩
      · simp [List.findIdx?_cons, hpa, hfi]
      · simpa using hgy

/-- C4: `_sortMatchesAndFixIndex` re-sorts the match list by
`(pageNumber, startOffset)` and leaves the same match object selected by
identity: for every match list with pairwise-distinct object identities and
a valid current index, the result is a permutation of the input, sorted by
the comparator order, and the new index points at exactly the match object
that was current before the sort. -/
theorem sortMatchesAndFixIndex_stable (matchList : List FindMatch) (idx : Int)
    (h0 : 0 ≤ idx) (h1 : idx.toNat < matchList.length)
    (h2 : (matchList.map FindMatch.mid).Nodup) :
    List.Perm (sortMatchesAndFixIndex matchList idx).1 matchList ∧
    List.Sorted matchLE (sortMatchesAndFixIndex matchList idx).1 ∧
    0 ≤ (sortMatchesAndFixIndex matchList idx).2 ∧
    (sortMatchesAndFixIndex matchList idx).1.get?
        (sortMatchesAndFixIndex matchList idx).2.toNat =
      matchList.get? idx.toNat := by
  have hcur : matchList.get? idx.toNat = some (matchList.get ⟨idx.toNat, h1⟩) :=
    List.get?_eq_get h1
  set m := matchList.get ⟨idx.toNat, h1⟩ with hm
  have hsorted := List.sorted_insertionSort matchLE matchList
  have hperm := List.perm_insertionSort matchLE matchList
  have hmem : m ∈ List.insertionSort matchLE matchList :=
    hperm.mem_iff.mpr (matchList.get_mem _ _)
  obtain ⟨i, y, hfi, hgy, hpy⟩ :=
    findIdx?_some_of_exists (fun x => x.mid == m.mid) _ ⟨m, hmem, by simp⟩
  have hnodup : ((List.insertionSort matchLE matchList).map FindMatch.mid).Nodup :=
    ((hperm.map FindMatch.mid).nodup_iff).mpr h2
  have hym : y = m := by
    have hymem : y ∈ List.insertionSort matchLE matchList := List.get?_mem hgy
    have hmid : y.mid = m.mid := by simpa using hpy
    exact List.inj_on_of_nodup_map hnodup hymem hmem hmid
  have hunfold : sortMatchesAndFixIndex matchList idx =
      (List.insertionSort matchLE matchList, (i : Int)) := by
    unfold sortMatchesAndFixIndex
    rw [if_pos h0, hcur]
    simp only [jsIndexOf, hfi]
  rw [hunfold]
  refine ⟨hperm, hsorted, Int.ofNat_nonneg i, ?_⟩
  have : ((i : Int)).toNat = i := Int.toNat_natCast i
  rw [this, hgy, hym, hcur]

theorem sortMatchesAndFixIndex_stable_witness :
    ((0 : Int) ≤ 0 ∧ (0 : Int).toNat < c4Matches.length ∧
      (c4Matches.map FindMatch.mid).Nodup) ∧
    (List.Perm (sortMatchesAndFixIndex c4Matches 0).1 c4Matches ∧
     List.Sorted matchLE (sortMatchesAndFixIndex c4Matches 0).1 ∧
     0 ≤ (sortMatchesAndFixIndex c4Matches 0).2 ∧
     (sortMatchesAndFixIndex c4Matches 0).1.get?
        (sortMatchesAndFixIndex c4Matches 0).2.toNat =
      c4Matches.get? (0 : Int).toNat) :=
  ⟨⟨by decide, by decide, by decide⟩,
   sortMatchesAndFixIndex_stable c4Matches 0 (by decide) (by decide) (by decide)⟩

/-- Evaluation of `find` on an unchanged query with unchanged search options
and a non-empty match list: the navigation branch of `find`
(find_controller.js lines 223-244). -/
theorem find_nav (s : FCState) (b : Bool) (hq : s.query ≠ "")
    (hn : 0 < s.matchList.length) :
    find s s.query ⟨s.caseSensitive, s.entireWord, s.highlightAll, b⟩ =
      (if b then
        (if s.currentMatchIndex - 1 < 0 then
          { s with currentMatchIndex := (s.matchList.length : Int) - 1,
                   state := FindSt.wrapped }
        else { s with currentMatchIndex := s.currentMatchIndex - 1, state := FindSt.found })
      else
        (if (s.matchList.length : Int) ≤ s.currentMatchIndex + 1 then
          { s with currentMatchIndex := 0, state := FindSt.wrapped }
        else { s with currentMatchIndex := s.currentMatchIndex + 1,
                      state := FindSt.found })) := by
  cases b <;> simp [find, hq, hn]

/-- C5: with a non-empty match list of length `n` and an active query,
`findNext` at index `n-1` wraps to index 0 with state WRAPPED, `findPrevious`
at index 0 wraps to `n-1` with state WRAPPED, and every non-wrapping call
moves the index by exactly ±1 and sets state FOUND. -/
theorem find_navigation_wraparound (s : FCState) (hq : s.query ≠ "")
    (hn : 0 < s.matchList.length) :
    (s.currentMatchIndex = (s.matchList.length : Int) - 1 →
      (findNext s).currentMatchIndex = 0 ∧ (findNext s).state = FindSt.wrapped) ∧
    (s.currentMatchIndex + 1 < (s.matchList.length : Int) →
      (findNext s).currentMatchIndex = s.currentMatchIndex + 1 ∧
      (findNext s).state = FindSt.found) ∧
    (s.currentMatchIndex = 0 →
      (findPrevious s).currentMatchIndex = (s.matchList.length : Int) - 1 ∧
      (findPrevious s).state = FindSt.wrapped) ∧
    (1 ≤ s.currentMatchIndex →
      (findPrevious s).currentMatchIndex = s.currentMatchIndex - 1 ∧
      (findPrevious s).state = FindSt.found) := by
  have hnavN := find_nav s false hq hn
  have hnavP := find_nav s true hq hn
  simp only [Bool.false_eq_true, if_false, if_true] at hnavN hnavP
  refine ⟨?_, ?_, ?_, ?_⟩
  · intro hidx
    rw [findNext, hnavN, if_pos (by omega)]
    exact ⟨rfl, rfl⟩
  · intro hidx
    rw [findNext, hnavN, if_neg (by omega)]
    exact ⟨rfl, rfl⟩
  · intro hidx
    rw [findPrevious, hnavP, if_pos (by omega)]
    exact ⟨rfl, rfl⟩
  · intro hidx
    rw [findPrevious, hnavP, if_neg (by omega)]
    exact ⟨rfl, rfl⟩

theorem find_navigation_wraparound_witness :
    (c5State.query ≠ "" ∧ 0 < c5State.matchList.length ∧
      c5State.currentMatchIndex = (c5State.matchList.length : Int) - 1) ∧
    ((findNext c5State).currentMatchIndex = 0 ∧
      (findNext c5State).state = FindSt.wrapped) :=
  ⟨⟨by decide, by decide, by decide⟩,
   (find_navigation_wraparound c5State (by decide) (by decide)).1 (by decide)⟩

end SPV
